import Mathlib

/-!
Shallow embedding of the `diffusion_planning` environments
(`src/envs/pointmass.py`, `src/envs/quad_2d.py`).

Floating-point values are modelled as real numbers.  Each definition is a
direct translation of the corresponding Python function; the doc comment of
every definition names its source.
-/

noncomputable section

open Real Classical

/-- From `bound(x, m, M)` (both files): saturating clamp, `min(max(x, m), M)`. -/
def bound (x m M : ℝ) : ℝ := min (max x m) M

/-- First loop of `wrap(x, m, M)` (both files): `while x > M: x = x - diff`. -/
def wrapDown (x M diff : ℝ) : ℝ :=
  if h : 0 < diff ∧ M < x then wrapDown (x - diff) M diff else x
termination_by (⌈(x - M) / diff⌉).toNat
decreasing_by
  have hd : diff ≠ 0 := ne_of_gt h.1
  have hpos : 0 < (x - M) / diff := div_pos (sub_pos.mpr h.2) h.1
  have h1 : (1 : ℤ) ≤ ⌈(x - M) / diff⌉ := by
    exact_mod_cast Int.ceil_pos.mpr hpos
  have h2 : (x - diff - M) / diff = (x - M) / diff - 1 := by
    field_simp
    ring
  have h3 : ⌈(x - diff - M) / diff⌉ = ⌈(x - M) / diff⌉ - 1 := by
    rw [h2, Int.ceil_sub_one]
  omega

/-- Second loop of `wrap(x, m, M)` (both files): `while x < m: x = x + diff`. -/
def wrapUp (x m diff : ℝ) : ℝ :=
  if h : 0 < diff ∧ x < m then wrapUp (x + diff) m diff else x
termination_by (⌈(m - x) / diff⌉).toNat
decreasing_by
  have hd : diff ≠ 0 := ne_of_gt h.1
  have hpos : 0 < (m - x) / diff := div_pos (sub_pos.mpr h.2) h.1
  have h1 : (1 : ℤ) ≤ ⌈(m - x) / diff⌉ := by
    exact_mod_cast Int.ceil_pos.mpr hpos
  have h2 : (m - (x + diff)) / diff = (m - x) / diff - 1 := by
    field_simp
    ring
  have h3 : ⌈(m - (x + diff)) / diff⌉ = ⌈(m - x) / diff⌉ - 1 := by
    rw [h2, Int.ceil_sub_one]
  omega

/-- From `wrap(x, m, M)` (both files): `diff = M - m`, subtract `diff` while
`x > M`, then add `diff` while `x < m`. -/
def wrap (x m M : ℝ) : ℝ := wrapUp (wrapDown x M (M - m)) m (M - m)

theorem wrapDown_le {M diff : ℝ} (hd : 0 < diff) : ∀ n (x : ℝ),
    (⌈(x - M) / diff⌉).toNat ≤ n → wrapDown x M diff ≤ M := by
  intro n
  induction n with
  | zero =>
    intro x hx
    rw [wrapDown]
    by_cases hMx : M < x
    · exfalso
      have hpos : 0 < (x - M) / diff := div_pos (sub_pos.mpr hMx) hd
      have h1 : (1 : ℤ) ≤ ⌈(x - M) / diff⌉ := by
        exact_mod_cast Int.ceil_pos.mpr hpos
      omega
    · rw [dif_neg (by tauto)]
      exact le_of_not_lt hMx
  | succ n ih =>
    intro x hx
    rw [wrapDown]
    by_cases hMx : M < x
    · rw [dif_pos ⟨hd, hMx⟩]
      apply ih
      have h2 : (x - diff - M) / diff = (x - M) / diff - 1 := by
        field_simp
        ring
      have h3 : ⌈(x - diff - M) / diff⌉ = ⌈(x - M) / diff⌉ - 1 := by
        rw [h2, Int.ceil_sub_one]
      omega
    · rw [dif_neg (by tauto)]
      exact le_of_not_lt hMx

theorem wrapUp_ge {m diff : ℝ} (hd : 0 < diff) : ∀ n (x : ℝ),
    (⌈(m - x) / diff⌉).toNat ≤ n → m ≤ wrapUp x m diff := by
  intro n
  induction n with
  | zero =>
    intro x hx
    rw [wrapUp]
    by_cases hxm : x < m
    · exfalso
      have hpos : 0 < (m - x) / diff := div_pos (sub_pos.mpr hxm) hd
      have h1 : (1 : ℤ) ≤ ⌈(m - x) / diff⌉ := by
        exact_mod_cast Int.ceil_pos.mpr hpos
      omega
    · rw [dif_neg (by tauto)]
      exact le_of_not_lt hxm
  | succ n ih =>
    intro x hx
    rw [wrapUp]
    by_cases hxm : x < m
    · rw [dif_pos ⟨hd, hxm⟩]
      apply ih
      have h2 : (m - (x + diff)) / diff = (m - x) / diff - 1 := by
        field_simp
        ring
      have h3 : ⌈(m - (x + diff)) / diff⌉ = ⌈(m - x) / diff⌉ - 1 := by
        rw [h2, Int.ceil_sub_one]
      omega
    · rw [dif_neg (by tauto)]
      exact le_of_not_lt hxm

theorem wrapUp_le_max {m diff : ℝ} : ∀ n (x : ℝ),
    (⌈(m - x) / diff⌉).toNat ≤ n → wrapUp x m diff ≤ max x (m + diff) := by
  intro n
  induction n with
  | zero =>
    intro x hx
    rw [wrapUp]
    by_cases h : 0 < diff ∧ x < m
    · exfalso
      have hpos : 0 < (m - x) / diff := div_pos (sub_pos.mpr h.2) h.1
      have h1 : (1 : ℤ) ≤ ⌈(m - x) / diff⌉ := by
        exact_mod_cast Int.ceil_pos.mpr hpos
      omega
    · rw [dif_neg h]
      exact le_max_left _ _
  | succ n ih =>
    intro x hx
    rw [wrapUp]
    by_cases h : 0 < diff ∧ x < m
    · rw [dif_pos h]
      have h2 : (m - (x + diff)) / diff = (m - x) / diff - 1 := by
        have hd : diff ≠ 0 := ne_of_gt h.1
        field_simp
        ring
      have h3 : ⌈(m - (x + diff)) / diff⌉ = ⌈(m - x) / diff⌉ - 1 := by
        rw [h2, Int.ceil_sub_one]
      have := ih (x + diff) (by omega)
      have hxd : x + diff < m + diff := by linarith [h.2]
      calc wrapUp (x + diff) m diff ≤ max (x + diff) (m + diff) := this
        _ ≤ m + diff := max_le (le_of_lt hxd) le_rfl
        _ ≤ max x (m + diff) := le_max_right _ _
    · rw [dif_neg h]
      exact le_max_left _ _

/-- The wrap primitive keeps its output in the closed interval `[m, M]`. -/
theorem wrap_mem {x m M : ℝ} (h : m < M) : m ≤ wrap x m M ∧ wrap x m M ≤ M := by
  have hd : 0 < M - m := sub_pos.mpr h
  constructor
  · exact wrapUp_ge hd _ _ le_rfl
  · have h1 : wrapDown x M (M - m) ≤ M := wrapDown_le hd _ _ le_rfl
    have h2 := @wrapUp_le_max m (M - m) _ (wrapDown x M (M - m)) le_rfl
    have h3 : max (wrapDown x M (M - m)) (m + (M - m)) ≤ M := by
      apply max_le h1
      linarith
    exact le_trans h2 h3

theorem bound_mem {x m M : ℝ} (h : m ≤ M) : m ≤ bound x m M ∧ bound x m M ≤ M := by
  unfold bound
  constructor
  · exact le_min (le_max_right x m) h
  · exact min_le_right _ _

/-! ## Dynamics models

State vectors from the source:
`PointMassEnv`: `state = [x, dx, y, dy]`, `dt = 0.1`, `MASS = 1`.
`Quad2DEnv`: `state = [x, dx, y, dy, theta, dtheta]`, `dt = 0.05`,
`MASS = 0.1`, `LENGTH = 0.1`, `INERTIA = MASS*LENGTH^2/12`, `GRAVITY = 9.81`.
The generic `rk4(derivs, y0, [0, dt])` of the source performs exactly one
classical RK4 step; the trailing action components of the augmented vector
have zero derivative, which the embedding realises by closing the derivative
function over the constant action. -/

/-- From `PointMassEnv` state `[x, dx, y, dy]`. -/
structure PmState where
  x : ℝ
  dx : ℝ
  y : ℝ
  dy : ℝ

def pmAdd (a b : PmState) : PmState := ⟨a.x + b.x, a.dx + b.dx, a.y + b.y, a.dy + b.dy⟩

def pmSmul (c : ℝ) (a : PmState) : PmState := ⟨c * a.x, c * a.dx, c * a.y, c * a.dy⟩

/-- From `PointMassEnv._dsdt`: `ddx = a1/m`, `ddy = a2/m`. -/
def pmDsdt (m a1 a2 : ℝ) (s : PmState) : PmState := ⟨s.dx, 1 / m * a1, s.dy, 1 / m * a2⟩

/-- From `rk4(derivs, y0, [0, dt])` (single fixed step) specialised to the
point-mass state. -/
def rk4Pm (f : PmState → PmState) (y0 : PmState) (dt : ℝ) : PmState :=
  let k1 := f y0
  let k2 := f (pmAdd y0 (pmSmul (dt / 2) k1))
  let k3 := f (pmAdd y0 (pmSmul (dt / 2) k2))
  let k4 := f (pmAdd y0 (pmSmul dt k3))
  pmAdd y0 (pmSmul (dt / 6) (pmAdd (pmAdd (pmAdd k1 (pmSmul 2 k2)) (pmSmul 2 k3)) k4))

def pmDt : ℝ := 1 / 10

def pmMass : ℝ := 1

def pmMaxAcc : ℝ := 5

/-- From `PointMassEnv.step` state update: clip the action to `[-MAX_ACC, MAX_ACC]`,
integrate one RK4 step, then clamp all four components. -/
def pmStepState (a1 a2 : ℝ) (s : PmState) : PmState :=
  let c1 := bound a1 (-pmMaxAcc) pmMaxAcc
  let c2 := bound a2 (-pmMaxAcc) pmMaxAcc
  let ns := rk4Pm (pmDsdt pmMass c1 c2) s pmDt
  ⟨bound ns.x (-5) 5, bound ns.dx (-5) 5, bound ns.y (-5) 5, bound ns.dy (-5) 5⟩

/-- From `Quad2DEnv` state `[x, dx, y, dy, theta, dtheta]`. -/
structure QState where
  x : ℝ
  dx : ℝ
  y : ℝ
  dy : ℝ
  th : ℝ
  dth : ℝ

def qAdd (a b : QState) : QState :=
  ⟨a.x + b.x, a.dx + b.dx, a.y + b.y, a.dy + b.dy, a.th + b.th, a.dth + b.dth⟩

def qSmul (c : ℝ) (a : QState) : QState :=
  ⟨c * a.x, c * a.dx, c * a.y, c * a.dy, c * a.th, c * a.dth⟩

def qDt : ℝ := 1 / 20

def qMass : ℝ := 1 / 10

def qLength : ℝ := 1 / 10

def qInertia : ℝ := 1 / 12 * qMass * qLength ^ 2

def qGravity : ℝ := 981 / 100

/-- Default thrust bounds: `min_rel_thrust * MASS * GRAVITY / 2` with
`min_rel_thrust = 0.75`. -/
def qMinThrust : ℝ := 3 / 4 * qMass * qGravity / 2

/-- Default thrust bounds: `max_rel_thrust * MASS * GRAVITY / 2` with
`max_rel_thrust = 1.25`. -/
def qMaxThrust : ℝ := 5 / 4 * qMass * qGravity / 2

/-- From `Quad2DEnv._dsdt`: `ddx = -(a1+a2) sin th / m`,
`ddy = (a1+a2) cos th / m - g`, `ddth = L (a1-a2) / I`. -/
def qDsdt (a1 a2 : ℝ) (s : QState) : QState :=
  ⟨s.dx, -(1 / qMass) * (a1 + a2) * Real.sin s.th,
   s.dy, 1 / qMass * (a1 + a2) * Real.cos s.th - qGravity,
   s.dth, 1 / qInertia * (qLength * (a1 - a2))⟩

/-- From `rk4(derivs, y0, [0, dt])` (single fixed step) specialised to the
quadrotor state. -/
def rk4Q (f : QState → QState) (y0 : QState) (dt : ℝ) : QState :=
  let k1 := f y0
  let k2 := f (qAdd y0 (qSmul (dt / 2) k1))
  let k3 := f (qAdd y0 (qSmul (dt / 2) k2))
  let k4 := f (qAdd y0 (qSmul dt k3))
  qAdd y0 (qSmul (dt / 6) (qAdd (qAdd (qAdd k1 (qSmul 2 k2)) (qSmul 2 k3)) k4))

/-- The raw one-step forward integration of `Quad2DEnv.step` (after the
`np.clip` of the thrusts, before the boundary clamp/wrap). -/
def quadRk4 (a1 a2 : ℝ) (s : QState) : QState := rk4Q (qDsdt a1 a2) s qDt

/-- From `Quad2DEnv.step` state update: clip thrusts to
`[min_thrust, max_thrust]`, integrate one RK4 step, clamp `x, dx, y, dy, dth`
and wrap `th` into `[-MAX_ANG, MAX_ANG] = [-pi, pi]`. -/
def quadStepState (a1 a2 : ℝ) (s : QState) : QState :=
  let t1 := bound a1 qMinThrust qMaxThrust
  let t2 := bound a2 qMinThrust qMaxThrust
  let ns := quadRk4 t1 t2 s
  ⟨bound ns.x (-5) 5, bound ns.dx (-5) 5, bound ns.y (-5) 5, bound ns.dy (-5) 5,
   wrap ns.th (-Real.pi) Real.pi, bound ns.dth (-5) 5⟩

/-! ## Claim C1: boundary invariant after each step -/

lemma quadRk4_th_of_hover (a : ℝ) (s : QState) (h : s.dth = 0) :
    (quadRk4 a a s).th = s.th := by
  simp [quadRk4, rk4Q, qDsdt, qAdd, qSmul, h, sub_self]

lemma wrap_pi_eq : wrap Real.pi (-Real.pi) Real.pi = Real.pi := by
  have h1 : ¬ (0 < Real.pi - -Real.pi ∧ Real.pi < Real.pi) := by
    simp
  have h2 : ¬ (0 < Real.pi - -Real.pi ∧ Real.pi < -Real.pi) := by
    intro h
    have := Real.pi_pos
    linarith [h.2]
  rw [wrap, wrapDown, dif_neg h1, wrapUp, dif_neg h2]

/-- Claim C1 (amended): after each `step` of either environment, every clamped
component lies within `[-MAX, MAX]` inclusive and the wrapped quadrotor
angle lies within the closed interval `[-pi, pi]` (the value `pi` itself is
attainable, so the interval is not half-open). -/
theorem c1_step_boundary_invariant (s : QState) (p : PmState) (a1 a2 b1 b2 : ℝ) :
    (-5 ≤ (quadStepState a1 a2 s).x ∧ (quadStepState a1 a2 s).x ≤ 5) ∧
    (-5 ≤ (quadStepState a1 a2 s).dx ∧ (quadStepState a1 a2 s).dx ≤ 5) ∧
    (-5 ≤ (quadStepState a1 a2 s).y ∧ (quadStepState a1 a2 s).y ≤ 5) ∧
    (-5 ≤ (quadStepState a1 a2 s).dy ∧ (quadStepState a1 a2 s).dy ≤ 5) ∧
    (-Real.pi ≤ (quadStepState a1 a2 s).th ∧ (quadStepState a1 a2 s).th ≤ Real.pi) ∧
    (-5 ≤ (quadStepState a1 a2 s).dth ∧ (quadStepState a1 a2 s).dth ≤ 5) ∧
    (-5 ≤ (pmStepState b1 b2 p).x ∧ (pmStepState b1 b2 p).x ≤ 5) ∧
    (-5 ≤ (pmStepState b1 b2 p).dx ∧ (pmStepState b1 b2 p).dx ≤ 5) ∧
    (-5 ≤ (pmStepState b1 b2 p).y ∧ (pmStepState b1 b2 p).y ≤ 5) ∧
    (-5 ≤ (pmStepState b1 b2 p).dy ∧ (pmStepState b1 b2 p).dy ≤ 5) := by
  have hζ : (-5 : ℝ) ≤ 5 := by norm_num
  have hπ : -Real.pi < Real.pi := neg_lt_self Real.pi_pos
  refine ⟨bound_mem hζ, bound_mem hζ, bound_mem hζ, bound_mem hζ, wrap_mem hπ,
    bound_mem hζ, bound_mem hζ, bound_mem hζ, bound_mem hζ, bound_mem hζ⟩

/-- Claim C1 counterexample: from the state `[0, 0, 0, 0, pi, 0]` (a legal
fixed initial state, also producible by `wrap` itself) under equal thrusts,
`step` returns the wrapped angle exactly `pi`, which is not in the half-open
interval `[-pi, pi)` claimed by the spec. -/
theorem c1_counterexample :
    (quadStepState (981 / 2000) (981 / 2000) ⟨0, 0, 0, 0, Real.pi, 0⟩).th = Real.pi ∧
    ¬ ((quadStepState (981 / 2000) (981 / 2000) ⟨0, 0, 0, 0, Real.pi, 0⟩).th < Real.pi) := by
  have h : (quadStepState (981 / 2000) (981 / 2000) ⟨0, 0, 0, 0, Real.pi, 0⟩).th
      = Real.pi := by
    show wrap (quadRk4 (bound (981 / 2000) qMinThrust qMaxThrust)
      (bound (981 / 2000) qMinThrust qMaxThrust) ⟨0, 0, 0, 0, Real.pi, 0⟩).th
      (-Real.pi) Real.pi = Real.pi
    rw [quadRk4_th_of_hover _ _ rfl]
    exact wrap_pi_eq
  exact ⟨h, by rw [h]; exact lt_irrefl _⟩

/-! ## Episode state machine: termination, reward, observation -/

/-- Euclidean distance `np.linalg.norm(p - q)` of two planar points. -/
def dist2 (p q : ℝ × ℝ) : ℝ := Real.sqrt ((p.1 - q.1) ^ 2 + (p.2 - q.2) ^ 2)

/-- Obstacle shape: key `d` present (box of side `d`) or key `r` present
(circle of radius `r`), mirroring the tagged dicts of the source. -/
inductive Shape
  | box (d : ℝ)
  | circle (r : ℝ)

/-- Obstacle dict `{x, y, vx, vy, d}` or `{x, y, vx, vy, r}`. -/
structure Obst where
  x : ℝ
  y : ℝ
  vx : ℝ
  vy : ℝ
  shape : Shape

/-- The tri-state `self.target_reached` flag: `False`, `True`, or `-1`. -/
inductive TR
  | notReached
  | reached
  | collided
deriving DecidableEq

/-- Point-in-obstacle test from `Quad2DEnv._is_done`. -/
def collidesWith (o : Obst) (px py : ℝ) : Prop :=
  match o.shape with
  | .box d => o.x - d / 2 ≤ px ∧ px ≤ o.x + d / 2 ∧ o.y - d / 2 ≤ py ∧ py ≤ o.y + d / 2
  | .circle r => dist2 (o.x, o.y) (px, py) ≤ r

/-- Construction-time flags of `Quad2DEnv` relevant to termination. -/
structure QuadCfg where
  resetTargetReached : Bool
  resetOutOfBounds : Bool
  test : Bool
  maxSteps : ℕ
  eps : ℝ
  target : ℝ × ℝ

/-- Out-of-bounds test of `Quad2DEnv._is_done` (the `test` variant checks
only the two positions). -/
def quadOOBCond (test : Bool) (s : QState) : Prop :=
  if test then
    s.x ≤ -5 + 1 / 10000 ∨ s.x ≥ 5 - 1 / 10000 ∨
    s.y ≤ -5 + 1 / 10000 ∨ s.y ≥ 5 - 1 / 10000
  else
    s.x ≤ -5 + 1 / 10000 ∨ s.x ≥ 5 - 1 / 10000 ∨
    s.dx ≤ -5 + 1 / 10000 ∨ s.dx ≥ 5 - 1 / 10000 ∨
    s.y ≤ -5 + 1 / 10000 ∨ s.y ≥ 5 - 1 / 10000 ∨
    s.dy ≤ -5 + 1 / 10000 ∨ s.dy ≥ 5 - 1 / 10000 ∨
    s.dth ≤ -5 + 1 / 10000 ∨ s.dth ≥ 5 - 1 / 10000

/-- From `Quad2DEnv._is_done`, returning the `done` flag and the updated
`target_reached` flag.  The branches appear in source order: target reached,
out of bounds, obstacle collision, timestep budget. -/
def quadIsDone (cfg : QuadCfg) (obstacles : List Obst) (s : QState) (timestep : ℕ)
    (tr : TR) : Bool × TR :=
  if cfg.resetTargetReached = true ∧ dist2 (s.x, s.y) cfg.target ≤ cfg.eps then
    (true, TR.reached)
  else if cfg.resetOutOfBounds = true ∧ quadOOBCond cfg.test s then (true, tr)
  else if ∃ o ∈ obstacles, collidesWith o s.x s.y then (true, TR.collided)
  else if (timestep : ℤ) = (cfg.maxSteps : ℤ) - 1 then (true, tr)
  else (false, tr)

/-- Claim C2: with `reset_target_reached` enabled, a state simultaneously
within `epsilon` of the target and inside an obstacle terminates with
`target_reached = True` (success), not the collision outcome: the
target-reached branch of `_is_done` precedes the collision branch. -/
theorem c2_target_priority (cfg : QuadCfg) (obstacles : List Obst) (s : QState)
    (timestep : ℕ) (tr : TR)
    (h1 : cfg.resetTargetReached = true)
    (h2 : dist2 (s.x, s.y) cfg.target ≤ cfg.eps)
    (h3 : ∃ o ∈ obstacles, collidesWith o s.x s.y) :
    quadIsDone cfg obstacles s timestep tr = (true, TR.reached) := by
  unfold quadIsDone
  rw [if_pos ⟨h1, h2⟩]

/-- Claim C2 witness: body exactly at the target `(1, 1)` and inside the box
obstacle centred there; `_is_done` reports success. -/
theorem c2_witness :
    quadIsDone ⟨true, false, false, 100, 1 / 5, (1, 1)⟩ [⟨1, 1, 0, 0, Shape.box (1 / 2)⟩]
      ⟨1, 0, 1, 0, 0, 0⟩ 0 TR.notReached = (true, TR.reached) := by
  apply c2_target_priority
  · rfl
  · show dist2 (1, 1) (1, 1) ≤ 1 / 5
    rw [dist2]
    norm_num
  · refine ⟨⟨1, 1, 0, 0, Shape.box (1 / 2)⟩, List.mem_singleton.mpr rfl, ?_⟩
    show (1 : ℝ) - 1 / 2 / 2 ≤ 1 ∧ (1 : ℝ) ≤ 1 + 1 / 2 / 2 ∧
      (1 : ℝ) - 1 / 2 / 2 ≤ 1 ∧ (1 : ℝ) ≤ 1 + 1 / 2 / 2
    norm_num

/-! ## Claim C3: behaviour after `done` -/

/-- Construction-time flags of `PointMassEnv` relevant to an episode. -/
structure PmCfg where
  resetTargetReached : Bool
  resetOutOfBounds : Bool
  maxSteps : ℕ
  eps : ℝ
  bonusReward : Bool
  target : ℝ × ℝ

/-- Out-of-bounds test of `PointMassEnv._is_done`. -/
def pmOOBCond (s : PmState) : Prop :=
  s.x ≤ -5 + 1 / 10000 ∨ s.x ≥ 5 - 1 / 10000 ∨
  s.dx ≤ -5 + 1 / 10000 ∨ s.dx ≥ 5 - 1 / 10000 ∨
  s.y ≤ -5 + 1 / 10000 ∨ s.y ≥ 5 - 1 / 10000 ∨
  s.dy ≤ -5 + 1 / 10000 ∨ s.dy ≥ 5 - 1 / 10000

/-- From `PointMassEnv._is_done` (no obstacles exist in this environment). -/
def pmIsDone (cfg : PmCfg) (s : PmState) (timestep : ℕ) (tr : TR) : Bool × TR :=
  if cfg.resetTargetReached = true ∧ dist2 (s.x, s.y) cfg.target ≤ cfg.eps then
    (true, TR.reached)
  else if cfg.resetOutOfBounds = true ∧ pmOOBCond s then (true, tr)
  else if (timestep : ℤ) = (cfg.maxSteps : ℤ) - 1 then (true, tr)
  else (false, tr)

/-- From `PointMassEnv._get_reward`: negative distance, plus `1000` once within
`epsilon` when the bonus is enabled. -/
def pmReward (cfg : PmCfg) (s : PmState) : ℝ :=
  let d := dist2 (s.x, s.y) cfg.target
  if d ≤ cfg.eps ∧ cfg.bonusReward = true then -d + 1000 else -d

/-- From `PointMassEnv._get_ob`: `[x, dx, y, dy, target_x, target_y]`. -/
def pmGetOb (s : PmState) (target : ℝ × ℝ) : List ℝ :=
  [s.x, s.dx, s.y, s.dy, target.1, target.2]

/-- Mutable per-episode fields of `PointMassEnv`. -/
structure PmEp where
  state : PmState
  timestep : ℕ
  targetReached : TR

/-- From `PointMassEnv.step`: update the state, evaluate `_is_done` (before the
timestep increment) and `_get_reward`, increment the timestep, and return
`(observation, reward, done, target_reached)` next to the mutated episode. -/
def pmEpStep (cfg : PmCfg) (e : PmEp) (a1 a2 : ℝ) : PmEp × (List ℝ × ℝ × Bool × TR) :=
  let ns := pmStepState a1 a2 e.state
  let dtr := pmIsDone cfg ns e.timestep e.targetReached
  (⟨ns, e.timestep + 1, dtr.2⟩, (pmGetOb ns cfg.target, pmReward cfg ns, dtr.1, dtr.2))

lemma rk4Pm_eval (m a1 a2 dt : ℝ) (s : PmState) :
    rk4Pm (pmDsdt m a1 a2) s dt =
      ⟨s.x + s.dx * dt + 1 / m * a1 * dt ^ 2 / 2, s.dx + 1 / m * a1 * dt,
       s.y + s.dy * dt + 1 / m * a2 * dt ^ 2 / 2, s.dy + 1 / m * a2 * dt⟩ := by
  simp only [rk4Pm, pmDsdt, pmAdd, pmSmul, PmState.mk.injEq]
  refine ⟨by ring, by ring, by ring, by ring⟩

lemma pm_ex_step_zero : pmStepState 0 0 ⟨0, 0, 0, 0⟩ = ⟨0, 0, 0, 0⟩ := by
  have hb : bound 0 (-pmMaxAcc) pmMaxAcc = 0 := by
    rw [bound, pmMaxAcc]
    norm_num
  simp only [pmStepState, hb, rk4Pm_eval]
  simp only [pmDt, pmMass, PmState.mk.injEq]
  norm_num [bound, min_def, max_def]

lemma pm_ex_step_acc : pmStepState 5 0 ⟨0, 0, 0, 0⟩ = ⟨1 / 40, 1 / 2, 0, 0⟩ := by
  have hb5 : bound 5 (-pmMaxAcc) pmMaxAcc = 5 := by
    rw [bound, pmMaxAcc]
    norm_num
  have hb0 : bound 0 (-pmMaxAcc) pmMaxAcc = 0 := by
    rw [bound, pmMaxAcc]
    norm_num
  simp only [pmStepState, hb5, hb0, rk4Pm_eval]
  simp only [pmDt, pmMass, PmState.mk.injEq]
  norm_num [bound, min_def, max_def]

lemma pm_ex_done_first :
    pmIsDone ⟨true, false, 100, 1 / 100, false, (0, 0)⟩ ⟨0, 0, 0, 0⟩ 0 TR.notReached
      = (true, TR.reached) := by
  rw [pmIsDone, if_pos]
  refine ⟨rfl, ?_⟩
  show dist2 (0, 0) (0, 0) ≤ 1 / 100
  rw [dist2]
  norm_num

lemma pm_ex_done_second :
    pmIsDone ⟨true, false, 100, 1 / 100, false, (0, 0)⟩ ⟨1 / 40, 1 / 2, 0, 0⟩ 1 TR.reached
      = (false, TR.reached) := by
  have hdist : dist2 ((1 : ℝ) / 40, (0 : ℝ)) (0, 0) = 1 / 40 := by
    rw [dist2]
    have h : ((1 : ℝ) / 40 - 0) ^ 2 + ((0 : ℝ) - 0) ^ 2 = (1 / 40) ^ 2 := by norm_num
    rw [h]
    exact Real.sqrt_sq (by norm_num)
  rw [pmIsDone, if_neg, if_neg, if_neg]
  · show ¬ ((1 : ℤ) = (100 : ℕ) - 1)
    norm_num
  · rintro ⟨hc, -⟩
    simp at hc
  · rintro ⟨-, hc⟩
    rw [hdist] at hc
    norm_num at hc

/-- Claim C3 (amended): termination is not latched.  `step` recomputes
`_is_done` from the current state on every call, so after a step returns
`done = true` (target reached), a further step before any reset can return
`done = false`; only the `target_reached` flag stays sticky. -/
theorem c3_no_latch :
    ((pmEpStep ⟨true, false, 100, 1 / 100, false, (0, 0)⟩ ⟨⟨0, 0, 0, 0⟩, 0, TR.notReached⟩
        0 0).2.2.2.1 = true) ∧
    ((pmEpStep ⟨true, false, 100, 1 / 100, false, (0, 0)⟩
        (pmEpStep ⟨true, false, 100, 1 / 100, false, (0, 0)⟩ ⟨⟨0, 0, 0, 0⟩, 0, TR.notReached⟩
          0 0).1 5 0).2.2.2.1 = false) ∧
    ((pmEpStep ⟨true, false, 100, 1 / 100, false, (0, 0)⟩
        (pmEpStep ⟨true, false, 100, 1 / 100, false, (0, 0)⟩ ⟨⟨0, 0, 0, 0⟩, 0, TR.notReached⟩
          0 0).1 5 0).2.2.2.2 = TR.reached) := by
  have h1 : pmEpStep ⟨true, false, 100, 1 / 100, false, (0, 0)⟩
      ⟨⟨0, 0, 0, 0⟩, 0, TR.notReached⟩ 0 0
      = (⟨⟨0, 0, 0, 0⟩, 1, TR.reached⟩,
         (pmGetOb ⟨0, 0, 0, 0⟩ (0, 0),
          pmReward ⟨true, false, 100, 1 / 100, false, (0, 0)⟩ ⟨0, 0, 0, 0⟩, true, TR.reached)) := by
    rw [pmEpStep]
    simp only [pm_ex_step_zero, pm_ex_done_first]
  have h2 : pmEpStep ⟨true, false, 100, 1 / 100, false, (0, 0)⟩
      ⟨⟨0, 0, 0, 0⟩, 1, TR.reached⟩ 5 0
      = (⟨⟨1 / 40, 1 / 2, 0, 0⟩, 2, TR.reached⟩,
         (pmGetOb ⟨1 / 40, 1 / 2, 0, 0⟩ (0, 0),
          pmReward ⟨true, false, 100, 1 / 100, false, (0, 0)⟩ ⟨1 / 40, 1 / 2, 0, 0⟩,
          false, TR.reached)) := by
    rw [pmEpStep]
    simp only [pm_ex_step_acc, pm_ex_done_second]
  rw [h1, h2]
  exact ⟨rfl, rfl, rfl⟩

/-- Claim C3 counterexample: in the same two-step episode the first step
returns `done = true` but the very next step (no reset in between) returns
`done = false`, refuting that the episode remains terminated. -/
theorem c3_counterexample :
    ¬ (((pmEpStep ⟨true, false, 100, 1 / 100, false, (0, 0)⟩
          ⟨⟨0, 0, 0, 0⟩, 0, TR.notReached⟩ 0 0).2.2.2.1 = true) →
       ((pmEpStep ⟨true, false, 100, 1 / 100, false, (0, 0)⟩
          (pmEpStep ⟨true, false, 100, 1 / 100, false, (0, 0)⟩
            ⟨⟨0, 0, 0, 0⟩, 0, TR.notReached⟩ 0 0).1 5 0).2.2.2.1 = true)) := by
  have h1 : pmEpStep ⟨true, false, 100, 1 / 100, false, (0, 0)⟩
      ⟨⟨0, 0, 0, 0⟩, 0, TR.notReached⟩ 0 0
      = (⟨⟨0, 0, 0, 0⟩, 1, TR.reached⟩,
         (pmGetOb ⟨0, 0, 0, 0⟩ (0, 0),
          pmReward ⟨true, false, 100, 1 / 100, false, (0, 0)⟩ ⟨0, 0, 0, 0⟩, true, TR.reached)) := by
    rw [pmEpStep]
    simp only [pm_ex_step_zero, pm_ex_done_first]
  have h2 : pmEpStep ⟨true, false, 100, 1 / 100, false, (0, 0)⟩
      ⟨⟨0, 0, 0, 0⟩, 1, TR.reached⟩ 5 0
      = (⟨⟨1 / 40, 1 / 2, 0, 0⟩, 2, TR.reached⟩,
         (pmGetOb ⟨1 / 40, 1 / 2, 0, 0⟩ (0, 0),
          pmReward ⟨true, false, 100, 1 / 100, false, (0, 0)⟩ ⟨1 / 40, 1 / 2, 0, 0⟩,
          false, TR.reached)) := by
    rw [pmEpStep]
    simp only [pm_ex_step_acc, pm_ex_done_second]
  rw [h1, h2]
  intro h
  exact Bool.false_ne_true (h rfl)

/-! ## Claims C7 and C6: obstacle kinematics and prediction -/

/-- Half-extent used in the obstacle bounce tests: `d/2` for a box,
`r` for a circle (`Quad2DEnv.step` lines 330-347). -/
def halfwidth : Shape → ℝ
  | .box d => d / 2
  | .circle r => r

/-- Per-obstacle, per-step kinematics from `Quad2DEnv.step`: compute the
prospective position, sign-flip each velocity component whose prospective
coordinate reaches the domain bound, then advance with the (possibly
flipped) velocity. -/
def obstKin (dt MX MY half : ℝ) (o : Obst) : Obst :=
  let px := o.x + o.vx * dt
  let py := o.y + o.vy * dt
  let nvx := if px ≤ -MX + half ∨ px ≥ MX - half then -o.vx else o.vx
  let nvy := if py ≤ -MY + half ∨ py ≥ MY - half then -o.vy else o.vy
  ⟨o.x + nvx * dt, o.y + nvy * dt, nvx, nvy, o.shape⟩

/-- Modelled from the spec (claim C7): the prospective x coordinate would
place part of the shape strictly outside the domain bound `[-MX, MX]`. -/
def shapeOutsideX (MX half px : ℝ) : Prop := MX < px + half ∨ px - half < -MX

/-- Claim C7 (amended): a velocity component is sign-flipped exactly when the
prospective next position puts the shape outside the domain bound or exactly
touching it (center within the half-extent of the bound, inclusive), and
never otherwise; the flip is applied before the position update, so the
position advances with the reflected velocity. -/
theorem c7_reflection (dt MX MY half : ℝ) (o : Obst) :
    (¬ (o.x + o.vx * dt ≤ -MX + half ∨ o.x + o.vx * dt ≥ MX - half) →
      (obstKin dt MX MY half o).vx = o.vx ∧
      (obstKin dt MX MY half o).x = o.x + o.vx * dt) ∧
    ((o.x + o.vx * dt ≤ -MX + half ∨ o.x + o.vx * dt ≥ MX - half) →
      (obstKin dt MX MY half o).vx = -o.vx ∧
      (obstKin dt MX MY half o).x = o.x + -o.vx * dt) ∧
    (¬ (o.y + o.vy * dt ≤ -MY + half ∨ o.y + o.vy * dt ≥ MY - half) →
      (obstKin dt MX MY half o).vy = o.vy ∧
      (obstKin dt MX MY half o).y = o.y + o.vy * dt) ∧
    ((o.y + o.vy * dt ≤ -MY + half ∨ o.y + o.vy * dt ≥ MY - half) →
      (obstKin dt MX MY half o).vy = -o.vy ∧
      (obstKin dt MX MY half o).y = o.y + -o.vy * dt) := by
  refine ⟨fun h => ?_, fun h => ?_, fun h => ?_, fun h => ?_⟩ <;>
    simp only [obstKin] <;>
    first
      | (rw [if_neg h]; exact ⟨rfl, rfl⟩)
      | (rw [if_pos h]; exact ⟨rfl, rfl⟩)

/-- Claim C7 witness: a box of side `1` at `x = 4.4` with `vx = 2` has
prospective position exactly `4.5 = MAX - d/2`; the component flips and the
obstacle moves backwards. -/
theorem c7_witness :
    ((22 / 5 : ℝ) + 2 * (1 / 20) ≤ -5 + 1 / 2 ∨
      (22 / 5 : ℝ) + 2 * (1 / 20) ≥ 5 - 1 / 2) ∧
    ((obstKin (1 / 20) 5 5 (1 / 2) ⟨22 / 5, 0, 2, 0, Shape.box 1⟩).vx = -2 ∧
     (obstKin (1 / 20) 5 5 (1 / 2) ⟨22 / 5, 0, 2, 0, Shape.box 1⟩).x
       = 22 / 5 + -2 * (1 / 20)) := by
  have hc : ((22 / 5 : ℝ) + 2 * (1 / 20) ≤ -5 + 1 / 2 ∨
      (22 / 5 : ℝ) + 2 * (1 / 20) ≥ 5 - 1 / 2) := by
    right
    norm_num
  exact ⟨hc, (c7_reflection (1 / 20) 5 5 (1 / 2) ⟨22 / 5, 0, 2, 0, Shape.box 1⟩).2.1 hc⟩

/-- Claim C7 counterexample: at the same obstacle the prospective position
`4.5` leaves the shape entirely inside `[-5, 5]` (so no part of it is
outside the bound), yet the velocity component is flipped: the flip
condition of the code is not `part of the shape strictly outside`. -/
theorem c7_counterexample :
    (obstKin (1 / 20) 5 5 (1 / 2) ⟨22 / 5, 0, 2, 0, Shape.box 1⟩).vx = -2 ∧
    ¬ shapeOutsideX 5 (1 / 2) (22 / 5 + 2 * (1 / 20)) := by
  constructor
  · simp only [obstKin]
    rw [if_pos (Or.inr (by norm_num : (22 / 5 : ℝ) + 2 * (1 / 20) ≥ 5 - 1 / 2))]
  · rw [shapeOutsideX]
    norm_num

/-- One row of `Quad2DEnv.predict_obstacles`: each predicted obstacle `j` is
advanced from the previous row with the bounce test taken at the half-extent
of the live obstacle `self.obstacles[j]` (boxes use `d/2`, circles use `r`). -/
def predictRow (orig cur : List Obst) : List Obst :=
  match orig, cur with
  | o :: os, c :: cs => obstKin qDt 5 5 (halfwidth o.shape) c :: predictRow os cs
  | _, _ => []

/-- Row `i` of `Quad2DEnv.predict_obstacles`: row `0` copies the live
obstacles, row `i+1` advances row `i`. -/
def predictN (orig : List Obst) : ℕ → List Obst
  | 0 => orig
  | i + 1 => predictRow orig (predictN orig i)

/-- From `Quad2DEnv.predict_obstacles(horizon)`: the rows `0 .. horizon-1`. -/
def predictDict (orig : List Obst) (H : ℕ) : List (List Obst) :=
  (List.range H).map (predictN orig)

/-- The obstacle advance performed by `Quad2DEnv.step`: obstacles with index
`< n_moving_obstacles_box` or in
`[n_obstacles_box, n_obstacles_box + n_moving_obstacles_circle)` move by the
bounce kinematics; all others are left untouched. -/
def stepObstaclesGo (nmb nbox nmc : ℕ) : ℕ → List Obst → List Obst
  | _, [] => []
  | i, o :: rest =>
      (if i < nmb ∨ (nbox ≤ i ∧ i < nbox + nmc) then obstKin qDt 5 5 (halfwidth o.shape) o
       else o) :: stepObstaclesGo nmb nbox nmc (i + 1) rest

def stepObstacles (nmb nbox nmc : ℕ) (l : List Obst) : List Obst :=
  stepObstaclesGo nmb nbox nmc 0 l

/-- Obstacles outside the moving index ranges have zero velocity (the layout
`_generate_obstacles` establishes). -/
def RowOK (nmb nbox nmc : ℕ) : ℕ → List Obst → Prop
  | _, [] => True
  | i, o :: rest =>
      (¬ (i < nmb ∨ (nbox ≤ i ∧ i < nbox + nmc)) → o.vx = 0 ∧ o.vy = 0) ∧
      RowOK nmb nbox nmc (i + 1) rest

/-- Two obstacle lists have the same length and pointwise equal shapes. -/
def ShapesEq : List Obst → List Obst → Prop
  | [], [] => True
  | o :: os, c :: cs => o.shape = c.shape ∧ ShapesEq os cs
  | _, _ => False

lemma obstKin_static (dt MX MY half : ℝ) (o : Obst) (hx : o.vx = 0) (hy : o.vy = 0) :
    obstKin dt MX MY half o = o := by
  cases o with
  | mk x y vx vy shape =>
    simp only at hx hy
    simp [obstKin, hx, hy]

lemma shapesEq_refl : ∀ l : List Obst, ShapesEq l l := by
  intro l
  induction l with
  | nil => trivial
  | cons o os ih => exact ⟨rfl, ih⟩

lemma predictRow_shapes : ∀ orig cur : List Obst,
    ShapesEq orig cur → ShapesEq orig (predictRow orig cur) := by
  intro orig
  induction orig with
  | nil =>
    intro cur h
    cases cur with
    | nil => trivial
    | cons c cs => exact absurd h (by simp [ShapesEq])
  | cons o os ih =>
    intro cur h
    cases cur with
    | nil => exact absurd h (by simp [ShapesEq])
    | cons c cs =>
      exact ⟨h.1, ih cs h.2⟩

lemma predictRow_rowOK (nmb nbox nmc : ℕ) : ∀ (i : ℕ) (orig cur : List Obst),
    ShapesEq orig cur → RowOK nmb nbox nmc i cur →
    RowOK nmb nbox nmc i (predictRow orig cur) := by
  intro i orig
  induction orig generalizing i with
  | nil =>
    intro cur h hr
    cases cur with
    | nil => trivial
    | cons c cs => exact absurd h (by simp [ShapesEq])
  | cons o os ih =>
    intro cur h hr
    cases cur with
    | nil => exact absurd h (by simp [ShapesEq])
    | cons c cs =>
      refine ⟨?_, ih (i + 1) cs h.2 hr.2⟩
      intro hidx
      have hst := hr.1 hidx
      rw [obstKin_static _ _ _ _ c hst.1 hst.2]
      exact hst

lemma predictRow_eq_stepGo (nmb nbox nmc : ℕ) : ∀ (i : ℕ) (orig cur : List Obst),
    ShapesEq orig cur → RowOK nmb nbox nmc i cur →
    predictRow orig cur = stepObstaclesGo nmb nbox nmc i cur := by
  intro i orig
  induction orig generalizing i with
  | nil =>
    intro cur h hr
    cases cur with
    | nil => rfl
    | cons c cs => exact absurd h (by simp [ShapesEq])
  | cons o os ih =>
    intro cur h hr
    cases cur with
    | nil => exact absurd h (by simp [ShapesEq])
    | cons c cs =>
      show obstKin qDt 5 5 (halfwidth o.shape) c :: predictRow os cs
        = (if i < nmb ∨ (nbox ≤ i ∧ i < nbox + nmc) then obstKin qDt 5 5 (halfwidth c.shape) c
           else c) :: stepObstaclesGo nmb nbox nmc (i + 1) cs
      rw [ih (i + 1) cs h.2 hr.2, h.1]
      by_cases hidx : i < nmb ∨ (nbox ≤ i ∧ i < nbox + nmc)
      · rw [if_pos hidx]
      · rw [if_neg hidx]
        have hst := hr.1 hidx
        rw [obstKin_static _ _ _ _ c hst.1 hst.2]

lemma predictN_shapes (orig : List Obst) : ∀ i, ShapesEq orig (predictN orig i) := by
  intro i
  induction i with
  | zero => exact shapesEq_refl orig
  | succ i ih => exact predictRow_shapes orig _ ih

lemma predictN_rowOK (nmb nbox nmc : ℕ) (orig : List Obst)
    (h : RowOK nmb nbox nmc 0 orig) : ∀ i, RowOK nmb nbox nmc 0 (predictN orig i) := by
  intro i
  induction i with
  | zero => exact h
  | succ i ih => exact predictRow_rowOK nmb nbox nmc 0 orig _ (predictN_shapes orig i) ih

/-- Claim C6: for every horizon `H >= 1`, `predict_obstacles` returns the rows
`0 .. H-1`; row `0` equals the current obstacle states, and every later row is
obtained from the previous row by exactly the obstacle advance `step`
performs (so static obstacles, having zero velocity, are replicated
unchanged across the horizon).  The routine is a pure function of the live
obstacle list. -/
theorem c6_predict_refines_step (orig : List Obst) (nmb nbox nmc H : ℕ)
    (hH : 1 ≤ H) (hstatic : RowOK nmb nbox nmc 0 orig) :
    (predictDict orig H).length = H ∧
    predictN orig 0 = orig ∧
    (∀ i, i < H → (predictDict orig H)[i]? = some (predictN orig i)) ∧
    (∀ i, i + 1 < H →
      predictN orig (i + 1) = stepObstacles nmb nbox nmc (predictN orig i)) := by
  refine ⟨by simp [predictDict], rfl, ?_, ?_⟩
  · intro i hi
    simp [predictDict, List.getElem?_map, List.getElem?_range, hi]
  · intro i hi
    show predictRow orig (predictN orig i) = stepObstaclesGo nmb nbox nmc 0 (predictN orig i)
    exact predictRow_eq_stepGo nmb nbox nmc 0 orig _ (predictN_shapes orig i)
      (predictN_rowOK nmb nbox nmc orig hstatic i)

/-- Claim C6 witness: a two-obstacle layout (one moving box, one static
circle) with horizon `2`. -/
theorem c6_witness :
    ((1 : ℕ) ≤ 2 ∧
      RowOK 1 1 0 0 [⟨0, 0, 1, 0, Shape.box 1⟩, ⟨2, 2, 0, 0, Shape.circle (1 / 2)⟩]) ∧
    ((predictDict [⟨0, 0, 1, 0, Shape.box 1⟩, ⟨2, 2, 0, 0, Shape.circle (1 / 2)⟩] 2).length = 2 ∧
      predictN [⟨0, 0, 1, 0, Shape.box 1⟩, ⟨2, 2, 0, 0, Shape.circle (1 / 2)⟩] 0
        = [⟨0, 0, 1, 0, Shape.box 1⟩, ⟨2, 2, 0, 0, Shape.circle (1 / 2)⟩] ∧
      (∀ i, i < 2 →
        (predictDict [⟨0, 0, 1, 0, Shape.box 1⟩, ⟨2, 2, 0, 0, Shape.circle (1 / 2)⟩] 2)[i]?
          = some (predictN [⟨0, 0, 1, 0, Shape.box 1⟩, ⟨2, 2, 0, 0, Shape.circle (1 / 2)⟩] i)) ∧
      (∀ i, i + 1 < 2 →
        predictN [⟨0, 0, 1, 0, Shape.box 1⟩, ⟨2, 2, 0, 0, Shape.circle (1 / 2)⟩] (i + 1)
          = stepObstacles 1 1 0
              (predictN [⟨0, 0, 1, 0, Shape.box 1⟩, ⟨2, 2, 0, 0, Shape.circle (1 / 2)⟩] i))) := by
  have hok : RowOK 1 1 0 0 [⟨0, 0, 1, 0, Shape.box 1⟩, ⟨2, 2, 0, 0, Shape.circle (1 / 2)⟩] := by
    refine ⟨?_, ?_, trivial⟩
    · intro h
      exact absurd (Or.inl (by norm_num)) h
    · intro h
      exact ⟨rfl, rfl⟩
  exact ⟨⟨by norm_num, hok⟩, c6_predict_refines_step _ 1 1 0 2 (by norm_num) hok⟩

/-! ## Claim C8: obstacle generation (`Quad2DEnv._generate_obstacles`) -/

/-- Size draw `d_min + rand * (d_max - d_min)` with `d_min = r_min = 0.1`,
`d_max = r_max = 0.5`. -/
def genSize (u : ℝ) : ℝ := 1 / 10 + u * (2 / 5)

/-- One generation phase of `_generate_obstacles`, consuming draws from the
stream `draws` starting at index `pos`: sample `(size, x, y)` as
`size = genSize u` and `x, y = (2*MAX - size) * (u - 0.5)` (both maxima are
`5`), reject the candidate if its center is within `dist_min = 2.0` of any
earlier obstacle, otherwise append it (moving obstacles additionally draw
`vx, vy = MAX_VEL * (u - 0.5)`).  The unbounded `while` loop of the source
is modelled with rejection fuel. -/
def genPhase (draws : ℕ → ℝ) (moving isBox : Bool) :
    ℕ → List Obst → ℕ → ℕ → Option (List Obst × ℕ)
  | pos, acc, 0, _ => some (acc, pos)
  | _, _, _ + 1, 0 => none
  | pos, acc, need + 1, fuel + 1 =>
      let w := genSize (draws pos)
      let cx := (10 - w) * (draws (pos + 1) - 1 / 2)
      let cy := (10 - w) * (draws (pos + 2) - 1 / 2)
      if ∀ o ∈ acc, ¬ (dist2 (o.x, o.y) (cx, cy) < 2) then
        (if moving then
          genPhase draws moving isBox (pos + 5)
            (acc ++ [⟨cx, cy, 5 * (draws (pos + 3) - 1 / 2), 5 * (draws (pos + 4) - 1 / 2),
              if isBox then Shape.box w else Shape.circle w⟩]) need (fuel + 1)
        else
          genPhase draws moving isBox (pos + 3)
            (acc ++ [⟨cx, cy, 0, 0, if isBox then Shape.box w else Shape.circle w⟩])
            need (fuel + 1))
      else genPhase draws moving isBox (pos + 3) acc (need + 1) fuel
termination_by pos acc need fuel => (need, fuel)

/-- From `Quad2DEnv._generate_obstacles`: moving boxes, then static boxes, then
moving circles, then static circles, each phase checking candidates against
all obstacles generated so far. -/
def generateObstacles (draws : ℕ → ℝ) (nmb nsb nmc nsc fuel : ℕ) : Option (List Obst) :=
  match genPhase draws true true 0 [] nmb fuel with
  | none => none
  | some (l1, p1) =>
    match genPhase draws false true p1 l1 nsb fuel with
    | none => none
    | some (l2, p2) =>
      match genPhase draws true false p2 l2 nmc fuel with
      | none => none
      | some (l3, p3) =>
        match genPhase draws false false p3 l3 nsc fuel with
        | none => none
        | some (l4, _) => some l4

/-- Claim C8 failing input: with rand draws `(0.5, 0.99, 0.5)` the generator
produces a single static circle of radius `0.3` centred at
`x = (2*5 - 0.3) * 0.49 = 4.753`, which exceeds the claimed center bound
`MAX - r = 4.7` (the circle pokes out of the domain by `0.053`): circle
centers are sampled from `(2*MAX - r) * (rand - 0.5)`, i.e. the box formula
with `r` substituted for `d`, instead of `(2*MAX - 2*r) * (rand - 0.5)`. -/
theorem c8_circle_center_out_of_claimed_range :
    generateObstacles (fun n => if n = 0 then 1 / 2 else if n = 1 then 99 / 100 else 1 / 2)
        0 0 0 1 1
      = some [⟨4753 / 1000, 0, 0, 0, Shape.circle (3 / 10)⟩] ∧
    5 - (3 / 10 : ℝ) < 4753 / 1000 := by
  constructor
  · simp only [generateObstacles, genPhase]
    rw [if_pos (by intro o ho; exact absurd ho (List.not_mem_nil o))]
    norm_num [genSize]
  · norm_num

/-! ## Claim C5: initial-state acceptance in `Quad2DEnv.reset` -/

/-- From `max_acc = (max_thrust * 2 - MASS * GRAVITY) / MASS` from
`_check_initial_vel`. -/
def qMaxAcc : ℝ := (qMaxThrust * 2 - qMass * qGravity) / qMass

/-- Proximity test with `obstacle_distance = 1.0` from
`Quad2DEnv._check_initial_pos`. -/
def nearObstacle (o : Obst) (px py : ℝ) : Prop :=
  match o.shape with
  | .box d =>
      o.x - d / 2 - 1 ≤ px ∧ px ≤ o.x + d / 2 + 1 ∧
      o.y - d / 2 - 1 ≤ py ∧ py ≤ o.y + d / 2 + 1
  | .circle r => dist2 (o.x, o.y) (px, py) ≤ r + 1

/-- From `Quad2DEnv._check_initial_pos`: the position must be farther than
`epsilon` from the target (when one is set) and at least `1.0` clear of
every obstacle. -/
def checkInitialPos (target : Option (ℝ × ℝ)) (obstacles : List Obst) (eps : ℝ)
    (s : QState) : Prop :=
  (∀ t, target = some t → ¬ (dist2 (s.x, s.y) t ≤ eps)) ∧
  ∀ o ∈ obstacles, ¬ nearObstacle o s.x s.y

/-- From `Quad2DEnv._check_initial_vel`: braking from the initial velocity under
`max_acc` must not overshoot a position bound. -/
def checkInitialVel (s : QState) : Prop :=
  ¬ ((s.dx > 0 ∧ s.x + 1 / 2 * s.dx ^ 2 / qMaxAcc > 5) ∨
     (s.dx < 0 ∧ s.x - 1 / 2 * s.dx ^ 2 / qMaxAcc < -5) ∨
     (s.dy > 0 ∧ s.y + 1 / 2 * s.dy ^ 2 / qMaxAcc > 5) ∨
     (s.dy < 0 ∧ s.y - 1 / 2 * s.dy ^ 2 / qMaxAcc < -5))

/-- From `Quad2DEnv._check_initial_orientation`: the angle lies in
`[-pi/2, pi/2]`. -/
def checkInitialOrientation (s : QState) : Prop :=
  ¬ (s.th > Real.pi / 2 ∨ s.th < -(Real.pi / 2))

/-- In test mode `reset` zeroes `state[[1, 3, 4, 5]]` before validation. -/
def quadZeroHover (s : QState) : QState := ⟨s.x, 0, s.y, 0, 0, 0⟩

/-- Acceptance test of the initial-state rejection loop in `Quad2DEnv.reset`:
`is_valid = _check_initial_pos(s) and _check_initial_vel(s)`, then
`is_valid = is_valid and _check_initial_orientation(s) if test else is_valid`. -/
def quadAcceptInitial (test : Bool) (target : Option (ℝ × ℝ)) (obstacles : List Obst)
    (eps : ℝ) (s : QState) : Prop :=
  let s1 := if test then quadZeroHover s else s
  let v := checkInitialPos target obstacles eps s1 ∧ checkInitialVel s1
  if test then v ∧ checkInitialOrientation s1 else v

/-- Modelled from the spec (claim C5): valid iff (a) the position check
holds and, only in test mode, additionally (b) the braking check and (c) the
orientation check; outside test mode only (a) is required. -/
def specAcceptInitial (test : Bool) (target : Option (ℝ × ℝ)) (obstacles : List Obst)
    (eps : ℝ) (s : QState) : Prop :=
  let s1 := if test then quadZeroHover s else s
  checkInitialPos target obstacles eps s1 ∧
  (test = true → (checkInitialVel s1 ∧ checkInitialOrientation s1))

/-- Claim C5 (amended): a sampled initial state is accepted iff the position
check (a) and the braking check (b) both hold — in both modes — and, only in
test mode, additionally the orientation check (c); the braking check is not
restricted to test mode. -/
theorem c5_initial_acceptance (test : Bool) (target : Option (ℝ × ℝ))
    (obstacles : List Obst) (eps : ℝ) (s : QState) :
    quadAcceptInitial test target obstacles eps s ↔
      (checkInitialPos target obstacles eps (if test then quadZeroHover s else s) ∧
       checkInitialVel (if test then quadZeroHover s else s) ∧
       (test = true → checkInitialOrientation (if test then quadZeroHover s else s))) := by
  cases test with
  | false => simp [quadAcceptInitial]
  | true =>
    simp only [quadAcceptInitial, if_true]
    constructor
    · rintro ⟨⟨h1, h2⟩, h3⟩
      exact ⟨h1, h2, fun _ => h3⟩
    · rintro ⟨h1, h2, h3⟩
      exact ⟨⟨h1, h2⟩, h3 (by simp)⟩

lemma qMaxAcc_val : qMaxAcc = 981 / 400 := by
  rw [qMaxAcc, qMaxThrust, qMass, qGravity]
  norm_num

/-- Claim C5 counterexample: outside test mode, the state
`[0, 5, 0, 0, 0, 0]` (at the origin, full positive x velocity, target at
`(4, 4)`, no obstacles) satisfies the position check — all the claim demands
outside test mode — yet `reset` rejects it because `_check_initial_vel`
fails: `0 + 0.5 * 25 / 2.4525 = 5.097 > 5`. -/
theorem c5_counterexample :
    specAcceptInitial false (some (4, 4)) [] (1 / 5) ⟨0, 5, 0, 0, 0, 0⟩ ∧
    ¬ quadAcceptInitial false (some (4, 4)) [] (1 / 5) ⟨0, 5, 0, 0, 0, 0⟩ := by
  have hpos : checkInitialPos (some (4, 4)) [] (1 / 5) ⟨0, 5, 0, 0, 0, 0⟩ := by
    constructor
    · intro t ht hle
      have ht' : t = ((4 : ℝ), (4 : ℝ)) := by
        injection ht with h
        exact h.symm
      subst ht'
      have hlt : (1 / 5 : ℝ) < dist2 (0, 0) (4, 4) := by
        rw [dist2]
        rw [Real.lt_sqrt (by norm_num)]
        norm_num
      rw [show ((⟨0, 5, 0, 0, 0, 0⟩ : QState).x, (⟨0, 5, 0, 0, 0, 0⟩ : QState).y)
        = ((0 : ℝ), (0 : ℝ)) from rfl] at hle
      linarith
    · intro o ho
      exact absurd ho (List.not_mem_nil o)
  constructor
  · refine ⟨hpos, ?_⟩
    intro h
    exact absurd h (by simp)
  · intro hacc
    have hv : checkInitialVel ⟨0, 5, 0, 0, 0, 0⟩ := by
      have := (hacc : checkInitialPos (some (4, 4)) [] (1 / 5) ⟨0, 5, 0, 0, 0, 0⟩ ∧
        checkInitialVel ⟨0, 5, 0, 0, 0, 0⟩)
      exact this.2
    apply hv
    left
    constructor
    · norm_num
    · rw [qMaxAcc_val]
      norm_num

/-! ## Claim C9: inverse dynamics (`Quad2DEnv.inverse_dynamics`) -/

/-- From `Quad2DEnv.inverse_dynamics(s_next)` with current state `s`:
finite-difference accelerations over one `dt`, thrust sum
`m * sqrt(ddx^2 + (ddy + g)^2)`, thrust difference `I * ddtheta / L`. -/
def quadInvDyn (s sNext : QState) : ℝ × ℝ :=
  let ddx := (sNext.dx - s.dx) / qDt
  let ddy := (sNext.dy - s.dy) / qDt
  let ddth := (sNext.dth - s.dth) / qDt
  let sum := qMass * Real.sqrt (ddx ^ 2 + (ddy + qGravity) ^ 2)
  let diff := qInertia * ddth / qLength
  ((sum + diff) / 2, (sum - diff) / 2)

lemma quadRk4_dth (a1 a2 : ℝ) (s : QState) :
    (quadRk4 a1 a2 s).dth = s.dth + qDt * (1 / qInertia * (qLength * (a1 - a2))) := by
  simp only [quadRk4, rk4Q, qDsdt, qAdd, qSmul]
  ring

lemma quadRk4_dx_hover (a : ℝ) (s : QState) (h : s.dth = 0) :
    (quadRk4 a a s).dx = s.dx + qDt * (-(1 / qMass) * (a + a) * Real.sin s.th) := by
  simp only [quadRk4, rk4Q, qDsdt, qAdd, qSmul, h, sub_self, mul_zero, zero_mul,
    add_zero, zero_add, neg_zero]
  ring

lemma quadRk4_dy_hover (a : ℝ) (s : QState) (h : s.dth = 0) :
    (quadRk4 a a s).dy = s.dy + qDt * (1 / qMass * (a + a) * Real.cos s.th - qGravity) := by
  simp only [quadRk4, rk4Q, qDsdt, qAdd, qSmul, h, sub_self, mul_zero, zero_mul,
    add_zero, zero_add, neg_zero]
  ring

/-- Claim C9 (amended): for every state and thrust pair, the inverse-dynamics
query applied to the raw one-step forward integration recovers the thrust
difference `T1 - T2` exactly; the full pair `(T1, T2)` is recovered exactly
in the constant-orientation case (`dtheta = 0` and `T1 = T2 >= 0`), but not
in general, because the thrust sum is reconstructed from finite-difference
accelerations. -/
theorem c9_inverse_dynamics (s : QState) (a1 a2 : ℝ) :
    ((quadInvDyn s (quadRk4 a1 a2 s)).1 - (quadInvDyn s (quadRk4 a1 a2 s)).2 = a1 - a2) ∧
    (s.dth = 0 → a1 = a2 → 0 ≤ a1 → quadInvDyn s (quadRk4 a1 a2 s) = (a1, a2)) := by
  constructor
  · simp only [quadInvDyn, quadRk4_dth]
    rw [qDt, qInertia, qLength, qMass]
    ring
  · intro h ha hpos
    subst ha
    have hdth0 : (quadRk4 a1 a1 s).dth = s.dth := by
      rw [quadRk4_dth]
      ring
    simp only [quadInvDyn, quadRk4_dx_hover a1 s h, quadRk4_dy_hover a1 s h, hdth0, h]
    have hddx : (s.dx + qDt * (-(1 / qMass) * (a1 + a1) * Real.sin s.th) - s.dx) / qDt
        = -(1 / qMass) * (a1 + a1) * Real.sin s.th := by
      rw [qDt]
      ring
    have hddy : (s.dy + qDt * (1 / qMass * (a1 + a1) * Real.cos s.th - qGravity) - s.dy) / qDt
        = 1 / qMass * (a1 + a1) * Real.cos s.th - qGravity := by
      rw [qDt]
      ring
    rw [hddx, hddy]
    have harg : (-(1 / qMass) * (a1 + a1) * Real.sin s.th) ^ 2
        + ((1 / qMass * (a1 + a1) * Real.cos s.th - qGravity) + qGravity) ^ 2
        = ((a1 + a1) / qMass) ^ 2 := by
      have hsc := Real.sin_sq_add_cos_sq s.th
      linear_combination ((a1 + a1) / qMass) ^ 2 * hsc
    rw [harg, Real.sqrt_sq (by rw [qMass]; positivity)]
    rw [qMass, qInertia, qLength, qDt]
    refine Prod.ext ?_ ?_ <;> simp <;> ring

/-- Claim C9 witness: hovering at rest (`dtheta = 0`, equal thrusts
`981/2000`), the inverse dynamics returns the thrust pair exactly. -/
theorem c9_witness :
    ((⟨0, 0, 0, 0, 0, 0⟩ : QState).dth = 0 ∧ (981 / 2000 : ℝ) = 981 / 2000 ∧
      (0 : ℝ) ≤ 981 / 2000) ∧
    quadInvDyn ⟨0, 0, 0, 0, 0, 0⟩ (quadRk4 (981 / 2000) (981 / 2000) ⟨0, 0, 0, 0, 0, 0⟩)
      = (981 / 2000, 981 / 2000) :=
  ⟨⟨rfl, rfl, by norm_num⟩,
    (c9_inverse_dynamics ⟨0, 0, 0, 0, 0, 0⟩ (981 / 2000) (981 / 2000)).2 rfl rfl (by norm_num)⟩

lemma c9ex_dx : (quadRk4 (981 / 2000) (981 / 2000) ⟨0, 0, 0, 0, 0, 5⟩).dx
    = -(981 / 100) * (4 * Real.sin (1 / 8) + Real.sin (1 / 4)) / 120 := by
  simp only [quadRk4, rk4Q, qDsdt, qAdd, qSmul, qMass, qDt, qInertia, qLength, qGravity]
  norm_num
  ring

lemma c9ex_dy : (quadRk4 (981 / 2000) (981 / 2000) ⟨0, 0, 0, 0, 0, 5⟩).dy
    = 981 / 100 * (4 * Real.cos (1 / 8) + Real.cos (1 / 4) - 5) / 120 := by
  simp only [quadRk4, rk4Q, qDsdt, qAdd, qSmul, qMass, qDt, qInertia, qLength, qGravity]
  norm_num
  ring

lemma c9ex_dth : (quadRk4 (981 / 2000) (981 / 2000) ⟨0, 0, 0, 0, 0, 5⟩).dth = 5 := by
  simp only [quadRk4, rk4Q, qDsdt, qAdd, qSmul, qMass, qDt, qInertia, qLength, qGravity]
  norm_num

lemma c9ex_sincos : (4 * Real.sin (1 / 8) + Real.sin (1 / 4)) ^ 2
    + (1 + 4 * Real.cos (1 / 8) + Real.cos (1 / 4)) ^ 2
    = 4 * (2 + Real.cos (1 / 8)) ^ 2 := by
  have h4 : (1 / 4 : ℝ) = 2 * (1 / 8) := by norm_num
  rw [h4, Real.sin_two_mul, Real.cos_two_mul]
  have hsc := Real.sin_sq_add_cos_sq (1 / 8 : ℝ)
  nlinarith [hsc]

lemma c9ex_key :
    (quadInvDyn ⟨0, 0, 0, 0, 0, 5⟩
        (quadRk4 (981 / 2000) (981 / 2000) ⟨0, 0, 0, 0, 0, 5⟩)).1
      = 981 / 6000 * (2 + Real.cos (1 / 8)) := by
  simp only [quadInvDyn, c9ex_dx, c9ex_dy, c9ex_dth]
  have harg : (((-(981 / 100) * (4 * Real.sin (1 / 8) + Real.sin (1 / 4)) / 120) - 0) / qDt) ^ 2
      + ((((981 / 100 * (4 * Real.cos (1 / 8) + Real.cos (1 / 4) - 5) / 120) - 0) / qDt)
          + qGravity) ^ 2
      = ((981 / 100) / 3 * (2 + Real.cos (1 / 8))) ^ 2 := by
    rw [qDt, qGravity]
    nlinarith [c9ex_sincos]
  rw [harg, Real.sqrt_sq (by nlinarith [Real.neg_one_le_cos (1 / 8 : ℝ)])]
  rw [qMass, qInertia, qLength, qDt]
  ring

/-- Claim C9 counterexample: from the state `[0, 0, 0, 0, 0, 5]` (spinning at
the maximal angular rate) under the in-bounds hover thrusts
`(981/2000, 981/2000)`, the recovered first thrust equals
`981/6000 * (2 + cos(1/8)) < 981/2000`: the inverse dynamics does not return
the thrust pair that produced the transition. -/
theorem c9_counterexample :
    (qMinThrust ≤ 981 / 2000 ∧ (981 / 2000 : ℝ) ≤ qMaxThrust) ∧
    (quadInvDyn ⟨0, 0, 0, 0, 0, 5⟩
        (quadRk4 (981 / 2000) (981 / 2000) ⟨0, 0, 0, 0, 0, 5⟩)).1
      ≠ 981 / 2000 := by
  refine ⟨⟨?_, ?_⟩, ?_⟩
  · rw [qMinThrust, qMass, qGravity]
    norm_num
  · rw [qMaxThrust, qMass, qGravity]
    norm_num
  · rw [c9ex_key]
    intro heq
    have hc : Real.cos (1 / 8) = 1 := by linarith
    have h2pi : (1 / 8 : ℝ) < 2 * Real.pi := by
      have := Real.pi_gt_three
      linarith
    have hn2pi : -(2 * Real.pi) < (1 / 8 : ℝ) := by
      have := Real.pi_gt_three
      linarith
    have h0 := (Real.cos_eq_one_iff_of_lt_of_lt hn2pi h2pi).mp hc
    norm_num at h0

/-! ## Claims C4 and C10: reset, seeding, and the observation assertion

`gym.Env.reset(seed=seed)` re-seeds `self.np_random` when `seed` is not
`None`; `self.state_space.sample()` draws from the own generator of the
`Box` space, which `reset` never re-seeds (in `PointMassEnv.__init__` the Box
is created without a seed).  The model makes both sources explicit: `npOld`
is the pre-reset `np_random` stream, `seedFn seed` the stream obtained by
re-seeding with `seed`, and `boxStream`/`boxPos` the state of the Box
sampler.  `PointMassEnv._check_initial_pos` returns `True` unconditionally,
so the first Box draw is always accepted. -/

/-- Target rejection loop of `PointMassEnv.reset`: `_sample_target` draws
`2 * MAX * (rand - 0.5)` per axis; `_check_target` rejects targets within
`epsilon` of the current state.  The unbounded loop is modelled with fuel. -/
def pmFindTarget (np : ℕ → ℝ) (s : PmState) (eps : ℝ) : ℕ → ℕ → Option ((ℝ × ℝ) × ℕ)
  | _, 0 => none
  | pos, fuel + 1 =>
      let t := (10 * (np pos - 1 / 2), 10 * (np (pos + 1) - 1 / 2))
      if ¬ (dist2 (s.x, s.y) t ≤ eps) then some (t, pos + 2)
      else pmFindTarget np s eps (pos + 2) fuel

/-- Result of a modelled `PointMassEnv.reset`. -/
structure PmResetResult where
  obs : List ℝ
  state : PmState
  target : ℝ × ℝ
  boxPos : ℕ

/-- From `PointMassEnv.reset(seed)`: re-seed `np_random` if a seed is given; in
random-target mode draw the state from the Box sampler (always accepted) and
rejection-sample a fresh target from `np_random`; in fixed-target mode
install `initial_state` verbatim — when it is `None`, `_get_ob` hits its
assertion and the call aborts (`none`). -/
def pmResetModel (randomTarget : Bool) (initialState : Option PmState) (eps : ℝ)
    (oldTarget : ℝ × ℝ) (boxStream : ℕ → PmState) (boxPos : ℕ)
    (npOld : ℕ → ℝ) (seedFn : ℕ → ℕ → ℝ) (seed : Option ℕ) (fuel : ℕ) :
    Option PmResetResult :=
  let np := match seed with
    | some sd => seedFn sd
    | none => npOld
  if randomTarget then
    let s := boxStream boxPos
    match pmFindTarget np s eps 0 fuel with
    | none => none
    | some (t, _) => some ⟨pmGetOb s t, s, t, boxPos + 1⟩
  else
    match initialState with
    | none => none
    | some s => some ⟨pmGetOb s oldTarget, s, oldTarget, boxPos⟩

/-- Iterated `PointMassEnv.step` collecting the returned
`(observation, reward, done, target_reached)` tuples. -/
def pmRunSteps (cfg : PmCfg) (e : PmEp) : List (ℝ × ℝ) → List (List ℝ × ℝ × Bool × TR)
  | [] => []
  | a :: rest =>
      (pmEpStep cfg e a.1 a.2).2 :: pmRunSteps cfg (pmEpStep cfg e a.1 a.2).1 rest

/-- A full episode: `reset(seed)` followed by a fixed action sequence,
returning the initial observation and all step outputs. -/
def pmRunModel (rtr roob : Bool) (maxSteps : ℕ) (eps : ℝ) (bonus : Bool)
    (randomTarget : Bool) (initialState : Option PmState) (oldTarget : ℝ × ℝ)
    (boxStream : ℕ → PmState) (boxPos : ℕ) (npOld : ℕ → ℝ) (seedFn : ℕ → ℕ → ℝ)
    (seed : Option ℕ) (fuel : ℕ) (actions : List (ℝ × ℝ)) :
    Option (List ℝ × List (List ℝ × ℝ × Bool × TR)) :=
  match pmResetModel randomTarget initialState eps oldTarget boxStream boxPos npOld
      seedFn seed fuel with
  | none => none
  | some r =>
      some (r.obs,
        pmRunSteps ⟨rtr, roob, maxSteps, eps, bonus, r.target⟩ ⟨r.state, 0, TR.notReached⟩ actions)

/-- Claim C4 (amended): `reset` with an explicit seed makes the run
deterministic in everything except the state-space sampler: the outputs do
not depend on the pre-reset `np_random` state, so two runs with the same
seed, the same actions and the same Box-sampler state agree bit for bit.
The Box sampler itself is not re-seeded by `reset`. -/
theorem c4_seeded_run_determinism (rtr roob : Bool) (maxSteps : ℕ) (eps : ℝ)
    (bonus randomTarget : Bool) (initialState : Option PmState) (oldTarget : ℝ × ℝ)
    (boxStream : ℕ → PmState) (boxPos : ℕ) (npOld1 npOld2 : ℕ → ℝ)
    (seedFn : ℕ → ℕ → ℝ) (sd fuel : ℕ) (actions : List (ℝ × ℝ)) :
    pmRunModel rtr roob maxSteps eps bonus randomTarget initialState oldTarget
      boxStream boxPos npOld1 seedFn (some sd) fuel actions
    = pmRunModel rtr roob maxSteps eps bonus randomTarget initialState oldTarget
      boxStream boxPos npOld2 seedFn (some sd) fuel actions := rfl

/-- Claim C4 counterexample: two runs with the identical seed (hence the
identical re-seeded `np_random` stream) but different Box-sampler draws —
exactly what successive or entropy-seeded `state_space.sample()` calls give —
already return different initial observations, refuting bit-identical
reproducibility from the seed alone. -/
theorem c4_counterexample :
    pmRunModel true false 100 (1 / 5) false true none (0, 0)
        (fun _ => ⟨0, 0, 0, 0⟩) 0 (fun _ => 9 / 10) (fun _ _ => 9 / 10) (some 0) 1 []
    ≠ pmRunModel true false 100 (1 / 5) false true none (0, 0)
        (fun _ => ⟨1, 0, 0, 0⟩) 0 (fun _ => 9 / 10) (fun _ _ => 9 / 10) (some 0) 1 [] := by
  have ht1 : ¬ (dist2 ((0 : ℝ), (0 : ℝ)) (10 * (9 / 10 - 1 / 2), 10 * (9 / 10 - 1 / 2))
      ≤ 1 / 5) := by
    intro hle
    have : (1 / 5 : ℝ) < dist2 (0, 0) (10 * (9 / 10 - 1 / 2), 10 * (9 / 10 - 1 / 2)) := by
      rw [dist2]
      rw [Real.lt_sqrt (by norm_num)]
      norm_num
    linarith
  have ht2 : ¬ (dist2 ((1 : ℝ), (0 : ℝ)) (10 * (9 / 10 - 1 / 2), 10 * (9 / 10 - 1 / 2))
      ≤ 1 / 5) := by
    intro hle
    have : (1 / 5 : ℝ) < dist2 (1, 0) (10 * (9 / 10 - 1 / 2), 10 * (9 / 10 - 1 / 2)) := by
      rw [dist2]
      rw [Real.lt_sqrt (by norm_num)]
      norm_num
    linarith
  have e1 : pmRunModel true false 100 (1 / 5) false true none (0, 0)
      (fun _ => ⟨0, 0, 0, 0⟩) 0 (fun _ => 9 / 10) (fun _ _ => 9 / 10) (some 0) 1 []
      = some ([0, 0, 0, 0, 10 * (9 / 10 - 1 / 2), 10 * (9 / 10 - 1 / 2)], []) := by
    simp only [pmRunModel, pmResetModel, pmFindTarget, pmGetOb, pmRunSteps, if_true]
    rw [if_pos ht1]
  have e2 : pmRunModel true false 100 (1 / 5) false true none (0, 0)
      (fun _ => ⟨1, 0, 0, 0⟩) 0 (fun _ => 9 / 10) (fun _ _ => 9 / 10) (some 0) 1 []
      = some ([1, 0, 0, 0, 10 * (9 / 10 - 1 / 2), 10 * (9 / 10 - 1 / 2)], []) := by
    simp only [pmRunModel, pmResetModel, pmFindTarget, pmGetOb, pmRunSteps, if_true]
    rw [if_pos ht2]
  rw [e1, e2]
  intro h
  have := Option.some.inj h
  have h0 := congrArg Prod.fst this
  simp at h0

/-- From `Quad2DEnv._get_ob` body: observation with `theta` either raw or as
`(sin, cos)`, concatenated with the target. -/
def quadGetOb (thetaSC : Bool) (s : QState) (target : ℝ × ℝ) : List ℝ :=
  if thetaSC then
    [s.x, s.dx, s.y, s.dy, Real.sin s.th, Real.cos s.th, s.dth, target.1, target.2]
  else [s.x, s.dx, s.y, s.dy, s.th, s.dth, target.1, target.2]

/-- From `Quad2DEnv.reset` in fixed-target mode: `self.state = self.initial_state`
verbatim (no target re-sampling), then `_get_ob`, whose assertion aborts the
call when the state is `None`. -/
def quadResetFixed (initialState : Option QState) (thetaSC : Bool) (target : ℝ × ℝ) :
    Option (List ℝ) :=
  match initialState with
  | none => none
  | some s => some (quadGetOb thetaSC s target)

/-- From `__init__` of both environments: a truthy `target` argument selects
fixed-target mode (`random_target = False`); `initial_state` is stored
without any validation. -/
def ctorRandomTarget (target : Option (ℝ × ℝ)) : Bool :=
  match target with
  | none => true
  | some _ => false

/-- Claim C10: an environment constructed with a fixed target but with
`initial_state` left `None` passes construction (nothing validates the
pairing), and `reset` then installs `None` as the state and aborts on the
`_get_ob` assertion instead of returning an observation — in both
environments. -/
theorem c10_fixed_target_requires_initial_state (tpm tq : ℝ × ℝ) (eps : ℝ)
    (boxStream : ℕ → PmState) (boxPos : ℕ) (npOld : ℕ → ℝ) (seedFn : ℕ → ℕ → ℝ)
    (sd fuel : ℕ) (thetaSC : Bool) :
    ctorRandomTarget (some tpm) = false ∧
    pmResetModel (ctorRandomTarget (some tpm)) none eps tpm boxStream boxPos npOld
      seedFn (some sd) fuel = none ∧
    quadResetFixed none thetaSC tq = none :=
  ⟨rfl, rfl, rfl⟩
